import Mathlib

/-!
Shallow embedding of the matrix-core runtime (Go) for specification checking.

Each Go package becomes a lowercase namespace so that qualified names match
the source: `soul.GetMemories`, `matrix.Step`, `transport.Publish`,
`agent.New`.  Go maps become association lists, byte slices become
`List Nat`, `int64`/`int` become `Int`, unsigned sizes become `Nat`.
Untyped map-of-interface payloads are modeled as opaque association
lists of strings; no operation in this development inspects them.
Fallible Go functions (returning `error`) become `Except String`-valued
functions; side effects on external sinks (the metrics collector, the log
sink) become explicit trace fields threaded through the state.
-/

namespace soul

/-- MemoryEntry from internal/soul/soul.go: timestamp, content, type, tags. -/
structure MemoryEntry where
  Timestamp : Int
  Content : String
  «Type» : String
  Tags : List String
deriving DecidableEq

/-- Persona from internal/soul/soul.go: trait-weight map and goal list.
The trait weights are an association list standing for map[string]float64;
no claim inspects the numeric values, so weights are kept as Int. -/
structure Persona where
  Traits : List (String × Int)
  Goals : List String

/-- Soul from internal/soul/soul.go: identity, append-only memory log,
scalar value map and persona (mutex fields of the Go struct have no
sequential counterpart). -/
structure Soul where
  ID : String
  memory : List MemoryEntry
  values : List (String × Int)
  persona : Persona

/-- New from internal/soul/soul.go: fresh soul with empty memory, values
and persona. -/
def New (id : String) : Soul :=
  { ID := id
    memory := []
    values := []
    persona := { Traits := [], Goals := [] } }

/-- AddMemory from internal/soul/soul.go: unconditional ordered append to
the memory log. -/
def Soul.AddMemory (s : Soul) (entry : MemoryEntry) : Soul :=
  { s with memory := s.memory ++ [entry] }

/-- hasMatchingTags from internal/soul/soul.go: nested loops over the two
tag slices, returning true on the first element the two share. -/
def hasMatchingTags (a b : List String) : Bool :=
  a.any (fun tag => b.any (fun target => tag == target))

/-- GetMemories from internal/soul/soul.go: empty tag list returns a copy
of the whole log; otherwise the entries whose tags match, in log order. -/
def Soul.GetMemories (s : Soul) (tags : List String) : List MemoryEntry :=
  if tags.length = 0 then
    s.memory
  else
    s.memory.filter (fun entry => hasMatchingTags entry.Tags tags)

end soul

namespace transport

/-- EventType from internal/transport/eventbus.go: a string type. -/
abbrev EventType := String

/-- EventTypeP2P constant from internal/transport/eventbus.go. -/
def EventTypeP2P : EventType := "p2p"

/-- EventTypeSoul constant from internal/transport/eventbus.go. -/
def EventTypeSoul : EventType := "soul"

/-- EventTypeAgent constant from internal/transport/eventbus.go. -/
def EventTypeAgent : EventType := "agent"

/-- EventTypeTrainer constant from internal/transport/eventbus.go. -/
def EventTypeTrainer : EventType := "trainer"

/-- Event from internal/transport/eventbus.go: type tag, source, timestamp,
payload (opaque association list standing for map[string]interface). -/
structure Event where
  «Type» : EventType
  Source : String
  Timestamp : Int
  Data : List (String × String)
deriving DecidableEq

/-- Queue capacity of one subscriber channel: Subscribe creates the channel
with make(chan Event, 100). -/
def subscriberQueueCap : Nat := 100

/-- EventBus from internal/transport/eventbus.go: the subscriber table maps
an event type to the list of subscriber channels for that type.  A buffered
channel is modeled by its queued contents, oldest first.  The RWMutex has
no sequential counterpart. -/
structure EventBus where
  subscribers : List (EventType × List (List Event))

/-- NewEventBus from internal/transport/eventbus.go: empty subscriber table. -/
def NewEventBus : EventBus :=
  { subscribers := [] }

/-- Helper modeling the Go map append
subscribers[eventType] = append(subscribers[eventType], ch): adds a fresh
empty channel under the given type, inserting the key when absent. -/
def addChannel : List (EventType × List (List Event)) → EventType →
    List (EventType × List (List Event))
  | [], t => [(t, [[]])]
  | (t0, chans) :: rest, t =>
      if t0 = t then (t0, chans ++ [[]]) :: rest
      else (t0, chans) :: addChannel rest t

/-- Subscribe from internal/transport/eventbus.go, restricted to its effect
on the bus state: registers one fresh buffered channel (empty queue) under
the event type.  The returned receive channel and the context-driven
unsubscribe goroutine are concurrency features outside this sequential
model. -/
def EventBus.Subscribe (eb : EventBus) (eventType : EventType) : EventBus :=
  { subscribers := addChannel eb.subscribers eventType }

/-- Nonblocking conditional send from Publish: the select with a default
branch enqueues the event when the buffered channel has room and otherwise
drops it without blocking. -/
def trySend (q : List Event) (e : Event) : List Event :=
  if q.length < subscriberQueueCap then q ++ [e] else q

/-- Publish from internal/transport/eventbus.go: reads the channel list
registered under the type of the event and performs a nonblocking send on
each; channels registered under other types are untouched, and the table
itself gains no entry (a Go map read does not insert). -/
def EventBus.Publish (eb : EventBus) (e : Event) : EventBus :=
  { subscribers :=
      eb.subscribers.map (fun p =>
        if p.1 = e.«Type» then (p.1, p.2.map (fun q => trySend q e)) else p) }

/-- Close from internal/transport/eventbus.go: closes every channel and
resets the subscriber table to a fresh empty map. -/
def EventBus.Close (eb : EventBus) : EventBus :=
  { subscribers := [] }

/-- Lookup of the channel list registered for a type, the reading
counterpart of the Go map access subscribers[eventType] (absent key reads
as the empty list). -/
def lookupChans : List (EventType × List (List Event)) → EventType →
    List (List Event)
  | [], _ => []
  | (t0, chans) :: rest, t => if t0 = t then chans else lookupChans rest t

/-- Queues of the subscribers registered for a type, observable view used
by the theorems. -/
def EventBus.subQueues (eb : EventBus) (t : EventType) : List (List Event) :=
  lookupChans eb.subscribers t

/-- Iterated Publish, used to state the 150-events-into-one-queue claim. -/
def publishAll (eb : EventBus) (es : List Event) : EventBus :=
  es.foldl EventBus.Publish eb

end transport

namespace matrix

/-- Event from internal/matrix/matrix.go: type, timestamp, agent id,
payload (opaque association list standing for map[string]interface). -/
structure Event where
  «Type» : String
  Timestamp : Int
  AgentID : String
  Data : List (String × String)
deriving DecidableEq

/-- Rule from internal/matrix/matrix.go: identity, integer priority, and an
evaluation function.  The Go evaluator receives a context and the matrix
pointer; it is modeled as a function from an environment type to either an
event list or an error string. -/
structure Rule (σ : Type) where
  ID : String
  Priority : Int
  Evaluate : σ → Except String (List Event)

/-- Agent from internal/matrix/matrix.go: identity, type, and a state bag
(opaque association list standing for map[string]interface; the state
mutex has no sequential counterpart). -/
structure Agent where
  ID : String
  «Type» : String
  State : List (String × String)
deriving DecidableEq

/-- Matrix from internal/matrix/matrix.go: identity, ordered rule list,
agent registry (association list standing for the Go map keyed by agent
id), and the trace of events handed to the bound metrics collector via
RecordEvent, in call order (the collector is the only external sink Step
touches). -/
structure Matrix (σ : Type) where
  ID : String
  rules : List (Rule σ)
  agents : List (String × Agent)
  metricsTrace : List Event

/-- New from internal/matrix/matrix.go: empty rule list, empty registry. -/
def New (σ : Type) (id : String) : Matrix σ :=
  { ID := id, rules := [], agents := [], metricsTrace := [] }

/-- AddRule from internal/matrix/matrix.go: unconditionally appends the
rule to the rule list; there is no duplicate check and no error return. -/
def Matrix.AddRule (m : Matrix σ) (rule : Rule σ) : Matrix σ :=
  { m with rules := m.rules ++ [rule] }

/-- Registry lookup, the reading counterpart of the Go map access
m.agents[id]. -/
def lookupAgent : List (String × Agent) → String → Option Agent
  | [], _ => none
  | (id0, a) :: rest, id => if id0 = id then some a else lookupAgent rest id

/-- AddAgent from internal/matrix/matrix.go: fails when the agent id is
already present in the registry, otherwise inserts the agent keyed by its
id. -/
def Matrix.AddAgent (m : Matrix σ) (agent : Agent) : Except String (Matrix σ) :=
  match lookupAgent m.agents agent.ID with
  | some _ => .error ("agent with ID " ++ agent.ID ++ " already exists")
  | none => .ok { m with agents := m.agents ++ [(agent.ID, agent)] }

/-- Rule loop of Step from internal/matrix/matrix.go: evaluates each rule
of the snapshot in list order; a failing rule stops the loop and yields the
wrapped error, a succeeding rule has its events recorded (appended to the
metrics trace) before the next rule runs.  Returns the events recorded by
this step in order, and the error if one occurred. -/
def evalRules (env : σ) : List (Rule σ) → List Event × Option String
  | [] => ([], none)
  | rule :: rest =>
      match rule.Evaluate env with
      | .error e => ([], some ("rule " ++ rule.ID ++ " evaluation failed: " ++ e))
      | .ok events =>
          let tail := evalRules env rest
          (events ++ tail.1, tail.2)

/-- Step from internal/matrix/matrix.go: snapshots the rule list (a plain
copy, in insertion order, with no sorting), runs the rule loop, and hands
every produced event to the metrics collector in order.  Returns the
updated matrix and the error of the failing rule, if any. -/
def Matrix.Step (m : Matrix σ) (env : σ) : Matrix σ × Option String :=
  let snapshot := m.rules
  let result := evalRules env snapshot
  ({ m with metricsTrace := m.metricsTrace ++ result.1 }, result.2)

/-- GetAgent from internal/matrix/matrix.go: registry lookup with a
presence flag. -/
def Matrix.GetAgent (m : Matrix σ) (id : String) : Option Agent :=
  lookupAgent m.agents id

/-- Predicate used by the theorems: every rule in the list evaluates
successfully in the given environment. -/
def allOk (env : σ) (rules : List (Rule σ)) : Prop :=
  ∀ r ∈ rules, (r.Evaluate env).isOk = true

/-- Specification-side view of the events of one rule pass: the event lists
returned by the rules, concatenated in rule order (a failing rule
contributes nothing). -/
def successEvents (env : σ) : List (Rule σ) → List Event
  | [] => []
  | rule :: rest =>
      (match rule.Evaluate env with
       | .ok events => events
       | .error _ => []) ++ successEvents env rest

end matrix

namespace agent

/-- ResourceLimits from the agent package: page bound (uint32) and fuel
bound (uint64), both nonnegative machine integers modeled as Nat. -/
structure ResourceLimits where
  MaxMemoryPages : Nat
  MaxFuel : Nat
deriving DecidableEq

/-- Validate from the agent package: rejects a zero page count and a page
count above 65536; no other field is checked. -/
def ResourceLimits.Validate (l : ResourceLimits) : Except String Unit :=
  if l.MaxMemoryPages = 0 then
    .error "MaxMemoryPages must be greater than 0"
  else if l.MaxMemoryPages > 65536 then
    .error "MaxMemoryPages exceeds maximum allowed (65536)"
  else
    .ok ()

/-- Config from the agent package: id, compiled guest code bytes, working
buffer size (the stdout and stderr writers are external sinks with no
sequential counterpart). -/
structure Config where
  ID : String
  Code : List Nat
  MemSize : Nat
deriving DecidableEq

/-- Agent from the agent package, restricted to its observable outcome of
construction: identity and the allocated working buffer (the wazero module
and runtime handles are external library state). -/
structure Agent where
  ID : String
  memory : List Nat
deriving DecidableEq

/-- New from the agent package: validates the limits first and returns the
wrapped validation error before any runtime resource is created.  On valid
limits the source then builds the wasm runtime, registers the four host
functions, compiles the guest code and instantiates the module — calls
into the wazero library whose outcome depends on the guest bytes and the
host environment, not on the Go code under verification.  That combined
external phase is the wasmPhase argument: its error (standing for the
wrapped message of whichever library step failed) is returned as the
construction error; on its success the working buffer is allocated, a zero
MemSize defaulting to MaxMemoryPages * 65536 bytes.  The limits are read
nowhere after validation except for the page count: MaxFuel does not occur
in the body of the source function. -/
def New (wasmPhase : Except String Unit) (cfg : Config) (limits : ResourceLimits) :
    Except String Agent :=
  match limits.Validate with
  | .error e => .error ("invalid resource limits: " ++ e)
  | .ok _ =>
      match wasmPhase with
      | .error e => .error e
      | .ok _ =>
          let memSize := if cfg.MemSize = 0 then limits.MaxMemoryPages * 65536 else cfg.MemSize
          .ok { ID := cfg.ID, memory := List.replicate memSize 0 }

/-- Observable state a host call could touch: guest linear memory, the
working buffer of the agent, the log sink trace, and the outbound events
handed to the event bus. -/
structure HostState where
  guestMem : List Nat
  agentBuf : List Nat
  logTrace : List (List Nat)
  busTrace : List transport.Event
deriving DecidableEq

/-- Error a host call could trap with (the wazero calling convention lets
a host function end in a trap instead of a normal return). -/
inductive HostCallError where
  | invalidAccess : HostCallError
deriving DecidableEq

/-- hostLog from the agent package: the function body is empty, so the call
returns normally for every offset and length, performs no bounds check, and
neither reads guest memory nor appends to the log sink. -/
def hostLog (s : HostState) (offset length : Nat) : Except HostCallError HostState :=
  .ok s

/-- hostSend from the agent package: the function body is empty, so the
call returns normally for every argument tuple, performs no bounds check,
and forwards nothing to the event bus. -/
def hostSend (s : HostState) (targetOffset targetLength msgOffset msgLength : Nat) :
    Except HostCallError HostState :=
  .ok s

/-- hostGetMemory from the agent package: the function body is empty, so
the call returns normally for every offset and length and transfers no
bytes between guest memory and the working buffer. -/
def hostGetMemory (s : HostState) (offset length : Nat) : Except HostCallError HostState :=
  .ok s

/-- hostSetMemory from the agent package: the function body is empty, so
the call returns normally for every offset and length and transfers no
bytes between guest memory and the working buffer. -/
def hostSetMemory (s : HostState) (offset length : Nat) : Except HostCallError HostState :=
  .ok s

end agent

section Fixtures

/-- Concrete host state: four bytes of guest memory, a two-byte working
buffer, empty log and bus traces. -/
def hostS0 : agent.HostState :=
  { guestMem := [1, 2, 3, 4], agentBuf := [0, 0], logTrace := [], busTrace := [] }

/-- Concrete agent configuration with a nonzero working-buffer size. -/
def cfg0 : agent.Config :=
  { ID := "a0", Code := [], MemSize := 8 }

/-- Marker event of the priority-1 rule. -/
def evPrio1 : matrix.Event :=
  { «Type» := "from-priority-1", Timestamp := 0, AgentID := "", Data := [] }

/-- Marker event of the priority-5 rule. -/
def evPrio5 : matrix.Event :=
  { «Type» := "from-priority-5", Timestamp := 0, AgentID := "", Data := [] }

/-- Marker event of the priority-3 rule. -/
def evPrio3 : matrix.Event :=
  { «Type» := "from-priority-3", Timestamp := 0, AgentID := "", Data := [] }

/-- Rule of priority 1 added first. -/
def rulePrio1 : matrix.Rule Unit :=
  { ID := "one", Priority := 1, Evaluate := fun _ => .ok [evPrio1] }

/-- Rule of priority 5 added second. -/
def rulePrio5 : matrix.Rule Unit :=
  { ID := "five", Priority := 5, Evaluate := fun _ => .ok [evPrio5] }

/-- Rule of priority 3 added third. -/
def rulePrio3 : matrix.Rule Unit :=
  { ID := "three", Priority := 3, Evaluate := fun _ => .ok [evPrio3] }

/-- Matrix whose rules were added with priorities 1, 5, 3 in that order. -/
def mPrio : matrix.Matrix Unit :=
  (((matrix.New Unit "m-prio").AddRule rulePrio1).AddRule rulePrio5).AddRule rulePrio3

/-- Marker event of the first rule of the failing-step scenario. -/
def evOk1 : matrix.Event :=
  { «Type» := "ok-1", Timestamp := 1, AgentID := "", Data := [] }

/-- Marker event of the third rule of the failing-step scenario. -/
def evOk3 : matrix.Event :=
  { «Type» := "ok-3", Timestamp := 3, AgentID := "", Data := [] }

/-- First rule of the failing-step scenario, succeeds with one event. -/
def ruleOk1 : matrix.Rule Unit :=
  { ID := "first", Priority := 0, Evaluate := fun _ => .ok [evOk1] }

/-- Second rule of the failing-step scenario, fails. -/
def ruleBad : matrix.Rule Unit :=
  { ID := "second", Priority := 0, Evaluate := fun _ => .error "boom" }

/-- Third rule of the failing-step scenario, would succeed but never runs. -/
def ruleOk3 : matrix.Rule Unit :=
  { ID := "third", Priority := 0, Evaluate := fun _ => .ok [evOk3] }

/-- Matrix of the failing-step scenario: three rules, the second fails. -/
def mFail : matrix.Matrix Unit :=
  (((matrix.New Unit "m-fail").AddRule ruleOk1).AddRule ruleBad).AddRule ruleOk3

/-- Concrete agent-typed event for the queue-capacity witness. -/
def evAgentMsg : transport.Event :=
  { «Type» := "agent", Source := "sandbox-1", Timestamp := 0, Data := [] }

/-- Concrete agent registered in the duplicate-id witness. -/
def agentA : matrix.Agent :=
  { ID := "alpha", «Type» := "wasm", State := [] }

/-- Second agent carrying the same id as agentA. -/
def agentA2 : matrix.Agent :=
  { ID := "alpha", «Type» := "wasm-2", State := [] }

/-- Memory entry tagged "red". -/
def entryRed : soul.MemoryEntry :=
  { Timestamp := 1, Content := "saw red", «Type» := "obs", Tags := ["red"] }

/-- Memory entry tagged "blue" and "green". -/
def entryBlueGreen : soul.MemoryEntry :=
  { Timestamp := 2, Content := "saw blue green", «Type» := "obs", Tags := ["blue", "green"] }

/-- Memory entry with no tags. -/
def entryUntagged : soul.MemoryEntry :=
  { Timestamp := 3, Content := "plain", «Type» := "obs", Tags := [] }

/-- Marker event of the first duplicate-id rule. -/
def evDup1 : matrix.Event :=
  { «Type» := "dup-first", Timestamp := 0, AgentID := "", Data := [] }

/-- Marker event of the second duplicate-id rule. -/
def evDup2 : matrix.Event :=
  { «Type» := "dup-second", Timestamp := 0, AgentID := "", Data := [] }

/-- Rule with id "dup", added first. -/
def ruleDup1 : matrix.Rule Unit :=
  { ID := "dup", Priority := 0, Evaluate := fun _ => .ok [evDup1] }

/-- Rule with the same id "dup", added second. -/
def ruleDup2 : matrix.Rule Unit :=
  { ID := "dup", Priority := 0, Evaluate := fun _ => .ok [evDup2] }

/-- Event bus with one live subscriber for agent events, its queue empty. -/
def busW : transport.EventBus :=
  transport.NewEventBus.Subscribe "agent"

/-- Ordered log of three concrete memory entries. -/
def soulEntries : List soul.MemoryEntry :=
  [entryRed, entryBlueGreen, entryUntagged]

/-- Matrix whose registry already holds the agent with id "alpha". -/
def mWithA : matrix.Matrix Unit :=
  { ID := "m-agents", rules := [], agents := [("alpha", agentA)], metricsTrace := [] }

end Fixtures

/-- Appending memories one by one builds the log in call order. -/
theorem soul.foldl_addMemory_memory (entries : List soul.MemoryEntry) (s : soul.Soul) :
    (entries.foldl soul.Soul.AddMemory s).memory = s.memory ++ entries := by
  induction entries generalizing s with
  | nil => simp
  | cons e es ih => simp [List.foldl_cons, ih, soul.Soul.AddMemory, List.append_assoc]

/-- Nonempty intersection of two lists is the same as a shared element. -/
theorem soul.inter_ne_nil_iff (a b : List String) :
    a ∩ b ≠ [] ↔ ∃ t, t ∈ a ∧ t ∈ b := by
  constructor
  · intro h
    obtain ⟨x, hx⟩ := List.exists_mem_of_ne_nil _ h
    exact ⟨x, List.mem_inter_iff.mp hx⟩
  · rintro ⟨x, hx1, hx2⟩
    exact List.ne_nil_of_mem (List.mem_inter_iff.mpr ⟨hx1, hx2⟩)

/-- The nested-loop tag match of the source computes exactly nonempty
intersection of the two tag lists. -/
theorem soul.hasMatchingTags_eq (a b : List String) :
    soul.hasMatchingTags a b = decide (a ∩ b ≠ []) := by
  rw [Bool.eq_iff_iff]
  simp only [decide_eq_true_eq, soul.inter_ne_nil_iff]
  simp [soul.hasMatchingTags, List.any_eq_true]

/-- When every rule before the failing one succeeds, the rule loop stops at
the failing rule: it reports that rule in the error and has recorded the
events of the preceding rules only, whatever comes after. -/
theorem matrix.evalRules_prefix_fail (env : σ) (pre post : List (matrix.Rule σ))
    (rbad : matrix.Rule σ) (msg : String)
    (hpre : matrix.allOk env pre) (hbad : rbad.Evaluate env = .error msg) :
    matrix.evalRules env (pre ++ rbad :: post) =
      (matrix.successEvents env pre,
        some ("rule " ++ rbad.ID ++ " evaluation failed: " ++ msg)) := by
  induction pre with
  | nil => simp [matrix.evalRules, matrix.successEvents, hbad]
  | cons r rs ih =>
      have hr : (r.Evaluate env).isOk = true := hpre r (by simp)
      have hrs : matrix.allOk env rs := fun r2 h2 => hpre r2 (by simp [h2])
      cases hEval : r.Evaluate env with
      | error e => rw [hEval] at hr; simp [Except.isOk, Except.toBool] at hr
      | ok events => simp [matrix.evalRules, matrix.successEvents, hEval, ih hrs]

/-- Looking an id up fails exactly when the id is not among the keys. -/
theorem matrix.lookupAgent_none_not_mem (l : List (String × matrix.Agent)) (id : String)
    (h : matrix.lookupAgent l id = none) : id ∉ l.map Prod.fst := by
  induction l with
  | nil => simp
  | cons p rest ih =>
      obtain ⟨k, v⟩ := p
      by_cases hk : k = id
      · simp [matrix.lookupAgent, hk] at h
      · simp only [matrix.lookupAgent, if_neg hk] at h
        simp only [List.map_cons, List.mem_cons]
        rintro (he | he)
        · exact hk he.symm
        · exact ih h he

/-- Unfolding equation of the table lookup at a cons cell. -/
theorem transport.lookupChans_cons (t0 : transport.EventType)
    (chans : List (List transport.Event))
    (rest : List (transport.EventType × List (List transport.Event)))
    (t : transport.EventType) :
    transport.lookupChans ((t0, chans) :: rest) t =
      if t0 = t then chans else transport.lookupChans rest t := rfl

/-- Publish transforms exactly the queues registered under the type of the
published event, with the nonblocking send, and leaves the rest alone. -/
theorem transport.lookupChans_publish (l : List (transport.EventType × List (List transport.Event)))
    (e : transport.Event) (t : transport.EventType) :
    transport.lookupChans
        (l.map (fun p =>
          if p.1 = e.«Type» then (p.1, p.2.map (fun q => transport.trySend q e)) else p)) t =
      if t = e.«Type» then
        (transport.lookupChans l t).map (fun q => transport.trySend q e)
      else transport.lookupChans l t := by
  induction l with
  | nil => simp [transport.lookupChans]
  | cons p rest ih =>
      obtain ⟨t0, chans⟩ := p
      simp only [List.map_cons]
      by_cases h0 : t0 = e.«Type»
      · rw [if_pos h0, transport.lookupChans_cons, transport.lookupChans_cons]
        by_cases ht : t0 = t
        · rw [if_pos ht, if_pos ht, if_pos (show t = e.«Type» from ht ▸ h0)]
        · rw [if_neg ht, if_neg ht, ih]
      · rw [if_neg h0, transport.lookupChans_cons, transport.lookupChans_cons]
        by_cases ht : t0 = t
        · rw [if_pos ht, if_pos ht,
            if_neg (show ¬t = e.«Type» from fun hc => h0 (ht.trans hc))]
        · rw [if_neg ht, if_neg ht, ih]

/-- Queues registered for the type of the published event all receive the
nonblocking send. -/
theorem transport.subQueues_publish_eq (eb : transport.EventBus) (ev : transport.Event)
    (t : transport.EventType) (hev : ev.«Type» = t) :
    (eb.Publish ev).subQueues t = (eb.subQueues t).map (fun q => transport.trySend q ev) := by
  show transport.lookupChans (transport.EventBus.Publish eb ev).subscribers t = _
  simp only [transport.EventBus.Publish]
  rw [transport.lookupChans_publish eb.subscribers ev t, if_pos hev.symm]
  rfl

/-- Publishing a list of events of one type folds the nonblocking send over
the queues registered for that type. -/
theorem transport.subQueues_publishAll (es : List transport.Event) (eb : transport.EventBus)
    (t : transport.EventType) (h : ∀ ev ∈ es, ev.«Type» = t) :
    (transport.publishAll eb es).subQueues t =
      es.foldl (fun qs ev => qs.map (fun q => transport.trySend q ev)) (eb.subQueues t) := by
  induction es generalizing eb with
  | nil => rfl
  | cons ev evs ih =>
      have hev : ev.«Type» = t := h ev (by simp)
      have hevs : ∀ e2 ∈ evs, e2.«Type» = t := fun e2 h2 => h e2 (by simp [h2])
      calc (transport.publishAll eb (ev :: evs)).subQueues t
          = (transport.publishAll (eb.Publish ev) evs).subQueues t := rfl
        _ = evs.foldl (fun qs ev => qs.map (fun q => transport.trySend q ev))
              ((eb.Publish ev).subQueues t) := ih (eb.Publish ev) hevs
        _ = evs.foldl (fun qs ev => qs.map (fun q => transport.trySend q ev))
              ((eb.subQueues t).map (fun q => transport.trySend q ev)) := by
                rw [transport.subQueues_publish_eq eb ev t hev]
        _ = (ev :: evs).foldl (fun qs ev => qs.map (fun q => transport.trySend q ev))
              (eb.subQueues t) := by rw [List.foldl_cons]

/-- Folding the per-event queue map over a one-queue list tracks the fold
on that single queue. -/
theorem transport.foldl_map_singleton (es : List transport.Event) (q : List transport.Event) :
    es.foldl (fun qs ev => qs.map (fun q2 => transport.trySend q2 ev)) [q] =
      [es.foldl transport.trySend q] := by
  induction es generalizing q with
  | nil => rfl
  | cons ev evs ih => simp [List.foldl_cons, ih]

/-- Length of a queue after a burst of nonblocking sends: grows one per
event until the capacity of 100 and stays there. -/
theorem transport.foldl_trySend_length (es : List transport.Event) (q : List transport.Event)
    (h : q.length ≤ 100) :
    (es.foldl transport.trySend q).length = min (q.length + es.length) 100 := by
  induction es generalizing q with
  | nil => simp; omega
  | cons ev evs ih =>
      simp only [List.foldl_cons, transport.trySend, transport.subscriberQueueCap]
      by_cases hlt : q.length < 100
      · rw [if_pos hlt, ih (q ++ [ev]) (by simp; omega)]
        simp; omega
      · rw [if_neg hlt, ih q h]
        simp; omega

/-- C1: the four host calls of the agent package are empty stubs.  With a
guest memory bound of 4 bytes, the out-of-bounds invocations (offset 4,
length 1, so offset+length = 5 exceeds the bound) return normally instead
of failing with InvalidAccess, and the in-bounds invocations return with
the whole observable state unchanged: nothing reaches the log sink, no
outbound event reaches the bus, and no byte moves between guest memory and
the working buffer.  This refutes both the bounds-check half and the
documented-transfer half of the claim. -/
theorem hostCalls_are_unimplemented_stubs :
    agent.hostLog hostS0 4 1 = .ok hostS0 ∧
    agent.hostSend hostS0 4 1 4 1 = .ok hostS0 ∧
    agent.hostGetMemory hostS0 4 1 = .ok hostS0 ∧
    agent.hostSetMemory hostS0 4 1 = .ok hostS0 ∧
    agent.hostLog hostS0 0 4 = .ok hostS0 ∧
    agent.hostGetMemory hostS0 0 2 = .ok hostS0 ∧
    agent.hostSetMemory hostS0 0 2 = .ok hostS0 ∧
    hostS0.guestMem.length = 4 ∧ hostS0.logTrace = [] ∧ hostS0.busTrace = [] :=
  ⟨rfl, rfl, rfl, rfl, rfl, rfl, rfl, rfl, rfl, rfl⟩

/-- C2: Step evaluates the snapshot in raw insertion order, not sorted by
descending priority.  Rules added with priorities 1, 5, 3 produce their
marker events in the order 1, 5, 3, which differs from the order 5, 3, 1
the claim requires. -/
theorem step_evaluates_in_insertion_order :
    (mPrio.Step ()).1.metricsTrace = [evPrio1, evPrio5, evPrio3] ∧
    (mPrio.Step ()).2 = none ∧
    rulePrio1.Priority = 1 ∧ rulePrio5.Priority = 5 ∧ rulePrio3.Priority = 3 ∧
    [evPrio1, evPrio5, evPrio3] ≠ [evPrio5, evPrio3, evPrio1] := by
  refine ⟨rfl, rfl, rfl, rfl, rfl, ?_⟩
  decide

/-- C4 counterexample: ResourceLimits validation never looks at the fuel
bound.  Limits with one memory page and zero fuel pass Validate — a fact
of the validation function alone, which reads only MaxMemoryPages — and
construction treats zero fuel exactly like a large fuel budget: for every
outcome of the external wasm phase the result with MaxFuel = 0 equals the
result with MaxFuel = 1000000 at the same configuration (the source never
reads MaxFuel), so no fuel-driven ConfigError exists; with a guest program
whose wasm phase succeeds, construction with zero fuel completes. -/
theorem validate_accepts_zero_fuel :
    agent.ResourceLimits.Validate { MaxMemoryPages := 1, MaxFuel := 0 } = .ok () ∧
    agent.New (.ok ()) cfg0 { MaxMemoryPages := 1, MaxFuel := 0 } =
      agent.New (.ok ()) cfg0 { MaxMemoryPages := 1, MaxFuel := 1000000 } ∧
    agent.New (.error "failed to compile module: invalid binary") cfg0
        { MaxMemoryPages := 1, MaxFuel := 0 } =
      agent.New (.error "failed to compile module: invalid binary") cfg0
        { MaxMemoryPages := 1, MaxFuel := 1000000 } ∧
    (agent.New (.ok ()) cfg0 { MaxMemoryPages := 1, MaxFuel := 0 }).isOk = true :=
  ⟨rfl, rfl, rfl, rfl⟩

/-- C4 amended: sandbox construction rejects, with a ConfigError produced
by validation before any resource is allocated and before the wasm phase
runs — the rejection holds for every outcome of that external phase —
every ResourceLimits whose memory-page bound is outside 1..65536, in
particular MaxMemoryPages = 0; every page bound inside 1..65536 passes
validation; and the fuel bound is not validated at all. -/
theorem limits_validation_checks_pages_only (w : Except String Unit)
    (l : agent.ResourceLimits) (cfg : agent.Config) :
    (1 ≤ l.MaxMemoryPages → l.MaxMemoryPages ≤ 65536 → l.Validate = .ok ()) ∧
    (l.MaxMemoryPages = 0 →
      agent.New w cfg l =
        .error "invalid resource limits: MaxMemoryPages must be greater than 0") ∧
    (l.MaxMemoryPages > 65536 →
      agent.New w cfg l =
        .error "invalid resource limits: MaxMemoryPages exceeds maximum allowed (65536)") ∧
    (∀ fuel : Nat,
      (agent.ResourceLimits.mk l.MaxMemoryPages fuel).Validate = l.Validate ∧
      agent.New w cfg (agent.ResourceLimits.mk l.MaxMemoryPages fuel) =
        agent.New w cfg l) := by
  refine ⟨?_, ?_, ?_, ?_⟩
  · intro h1 h2
    unfold agent.ResourceLimits.Validate
    rw [if_neg (by omega), if_neg (by omega)]
  · intro h0
    unfold agent.New agent.ResourceLimits.Validate
    rw [if_pos h0]
    rfl
  · intro hbig
    unfold agent.New agent.ResourceLimits.Validate
    rw [if_neg (by omega), if_pos hbig]
    rfl
  · intro fuel
    exact ⟨rfl, rfl⟩

/-- Witness for the amended C4 theorem: construction with zero memory
pages fails with the wrapped validation error even when the external wasm
phase would itself fail on the guest code. -/
theorem limits_validation_checks_pages_only_witness :
    agent.New (.error "failed to compile module: invalid binary") cfg0
        { MaxMemoryPages := 0, MaxFuel := 7 } =
      .error "invalid resource limits: MaxMemoryPages must be greater than 0" :=
  (limits_validation_checks_pages_only (.error "failed to compile module: invalid binary")
    { MaxMemoryPages := 0, MaxFuel := 7 } cfg0).2.1 rfl

/-- C5: when the rules before a failing rule all succeed, Step returns the
RuleEvaluationError naming the failing rule, the events already recorded by
the earlier rules of the same step stay recorded (not rolled back), the
rules after the failing one are never evaluated (the outcome is the same
whatever they are), and the matrix keeps its rule list and agent registry
for the next step. -/
theorem step_rule_failure_aborts (m : matrix.Matrix σ) (env : σ)
    (pre post : List (matrix.Rule σ)) (rbad : matrix.Rule σ) (msg : String)
    (hrules : m.rules = pre ++ rbad :: post)
    (hpre : matrix.allOk env pre) (hbad : rbad.Evaluate env = .error msg) :
    (m.Step env).2 = some ("rule " ++ rbad.ID ++ " evaluation failed: " ++ msg) ∧
    (m.Step env).1.metricsTrace = m.metricsTrace ++ matrix.successEvents env pre ∧
    (∀ post2 : List (matrix.Rule σ),
      (({ m with rules := pre ++ rbad :: post2 } : matrix.Matrix σ).Step env).2 =
        (m.Step env).2 ∧
      (({ m with rules := pre ++ rbad :: post2 } : matrix.Matrix σ).Step env).1.metricsTrace =
        (m.Step env).1.metricsTrace) ∧
    (m.Step env).1.rules = m.rules ∧
    (m.Step env).1.agents = m.agents := by
  have key := matrix.evalRules_prefix_fail env pre post rbad msg hpre hbad
  refine ⟨?_, ?_, ?_, rfl, rfl⟩
  · simp [matrix.Matrix.Step, hrules, key]
  · simp [matrix.Matrix.Step, hrules, key]
  · intro post2
    have key2 := matrix.evalRules_prefix_fail env pre post2 rbad msg hpre hbad
    constructor <;> simp [matrix.Matrix.Step, hrules, key, key2]

/-- Witness for C5 at the three-rule matrix whose second rule fails: the
step error names the second rule and only the event of the first rule was
recorded. -/
theorem step_rule_failure_aborts_witness :
    (mFail.Step ()).2 = some "rule second evaluation failed: boom" ∧
    (mFail.Step ()).1.metricsTrace = [evOk1] := by
  have hrules : mFail.rules = [ruleOk1] ++ ruleBad :: [ruleOk3] := rfl
  have hpre : matrix.allOk () [ruleOk1] := by
    intro r hr
    rw [List.mem_singleton.mp hr]
    rfl
  have main := step_rule_failure_aborts mFail () [ruleOk1] [ruleOk3] ruleBad "boom"
    hrules hpre rfl
  refine ⟨?_, ?_⟩
  · rw [main.1]
    rfl
  · rw [main.2.1]
    rfl

/-- C6: publish performs a nonblocking send on every queue registered for
the type of the event — a queue holding fewer than 100 events receives the
event at its tail, a full queue (100 events) drops it — queues registered
for other types are untouched, and publishing a burst of same-typed events
into a freshly subscribed bus leaves its single subscriber with exactly
min(burst, 100) events, so at most 100 of 150 are delivered; publish is a
total function on the bus state, so it never blocks and never errors. -/
theorem publish_delivers_or_drops (eb : transport.EventBus) (e : transport.Event)
    (t : transport.EventType) (es : List transport.Event) :
    ((eb.Publish e).subQueues e.«Type» =
      (eb.subQueues e.«Type»).map (fun q => if q.length < 100 then q ++ [e] else q)) ∧
    (t ≠ e.«Type» → (eb.Publish e).subQueues t = eb.subQueues t) ∧
    ((∀ ev ∈ es, ev.«Type» = t) →
      ∃ q, (transport.publishAll (transport.NewEventBus.Subscribe t) es).subQueues t = [q] ∧
        q.length = min es.length 100) := by
  refine ⟨?_, ?_, ?_⟩
  · rw [transport.subQueues_publish_eq eb e e.«Type» rfl]
    rfl
  · intro hne
    show transport.lookupChans (transport.EventBus.Publish eb e).subscribers t = _
    simp only [transport.EventBus.Publish]
    rw [transport.lookupChans_publish eb.subscribers e t, if_neg hne]
    rfl
  · intro h
    have hstart : (transport.NewEventBus.Subscribe t).subQueues t = [[]] := by
      show transport.lookupChans [(t, [[]])] t = [[]]
      rw [transport.lookupChans_cons, if_pos rfl]
    rw [transport.subQueues_publishAll es (transport.NewEventBus.Subscribe t) t h, hstart,
      transport.foldl_map_singleton]
    exact ⟨es.foldl transport.trySend [], rfl, by
      have := transport.foldl_trySend_length es [] (by simp)
      simpa using this⟩

/-- Witness for C6: a subscriber for another type is untouched, and a burst
of 150 agent events into a fresh bus with one agent subscriber leaves that
subscriber with exactly 100 queued events. -/
theorem publish_delivers_or_drops_witness :
    ((busW.Publish evAgentMsg).subQueues "soul" = busW.subQueues "soul") ∧
    (∃ q, (transport.publishAll (transport.NewEventBus.Subscribe "agent")
        (List.replicate 150 evAgentMsg)).subQueues "agent" = [q] ∧ q.length = 100) := by
  have m1 := (publish_delivers_or_drops busW evAgentMsg "soul" []).2.1
  have m2 := (publish_delivers_or_drops busW evAgentMsg "agent"
    (List.replicate 150 evAgentMsg)).2.2
  refine ⟨m1 (by decide), ?_⟩
  obtain ⟨q, hq, hlen⟩ := m2 (fun ev hev => by rw [List.eq_of_mem_replicate hev]; rfl)
  refine ⟨q, hq, ?_⟩
  rw [List.length_replicate] at hlen
  omega

/-- C7: adding an agent whose id is already a key of the registry fails
with the duplicate-id error (and, the result being an error, no new
registry is produced); adding an agent with a fresh id succeeds and appends
exactly that agent under its id; and a registry with pairwise-distinct ids
keeps them pairwise distinct through every successful add. -/
theorem addAgent_rejects_duplicate_id (m : matrix.Matrix σ) (a : matrix.Agent) :
    ((matrix.lookupAgent m.agents a.ID).isSome = true →
      m.AddAgent a = .error ("agent with ID " ++ a.ID ++ " already exists")) ∧
    (matrix.lookupAgent m.agents a.ID = none →
      m.AddAgent a = .ok { m with agents := m.agents ++ [(a.ID, a)] }) ∧
    (∀ m2 : matrix.Matrix σ, (m.agents.map Prod.fst).Nodup → m.AddAgent a = .ok m2 →
      (m2.agents.map Prod.fst).Nodup) := by
  refine ⟨?_, ?_, ?_⟩
  · intro hsome
    cases h : matrix.lookupAgent m.agents a.ID with
    | none => rw [h] at hsome; simp at hsome
    | some v => simp [matrix.Matrix.AddAgent, h]
  · intro hnone
    simp [matrix.Matrix.AddAgent, hnone]
  · intro m2 hnodup hok
    cases h : matrix.lookupAgent m.agents a.ID with
    | some v => simp [matrix.Matrix.AddAgent, h] at hok
    | none =>
        simp [matrix.Matrix.AddAgent, h] at hok
        have hmem := matrix.lookupAgent_none_not_mem m.agents a.ID h
        rw [← hok]
        simp [List.nodup_append, hnodup]
        intro x hx
        exact hmem (List.mem_map_of_mem Prod.fst hx)

/-- Witness for C7: the second agent carrying the id "alpha" is rejected
with the duplicate-id error. -/
theorem addAgent_rejects_duplicate_id_witness :
    mWithA.AddAgent agentA2 = .error "agent with ID alpha already exists" := by
  have main := (addAgent_rejects_duplicate_id mWithA agentA2).1 rfl
  rw [main]
  rfl

/-- C8: building a soul by a sequence of addMemory calls and reading with
an empty tag list returns the full log in call order with no loss or
duplication, and reading with a nonempty tag list T returns exactly the
entries whose tag set has a nonempty intersection with T (ANY-match), in
log order. -/
theorem getMemories_order_and_anyMatch (id : String) (entries : List soul.MemoryEntry)
    (T : List String) :
    ((entries.foldl soul.Soul.AddMemory (soul.New id)).GetMemories [] = entries) ∧
    (T ≠ [] →
      (entries.foldl soul.Soul.AddMemory (soul.New id)).GetMemories T =
        entries.filter (fun e => decide (e.Tags ∩ T ≠ []))) := by
  have hmem : (entries.foldl soul.Soul.AddMemory (soul.New id)).memory = entries := by
    rw [soul.foldl_addMemory_memory]
    rfl
  constructor
  · simp [soul.Soul.GetMemories, hmem]
  · intro hT
    have hlen : ¬T.length = 0 := by simpa [List.length_eq_zero] using hT
    simp only [soul.Soul.GetMemories, if_neg hlen, hmem]
    apply List.filter_congr
    intro e he
    exact soul.hasMatchingTags_eq e.Tags T

/-- Witness for C8 at a three-entry log and the tag set \x7b green, violet\x7d:
the empty query returns the whole log in order and the tag query returns
exactly the blue-green entry. -/
theorem getMemories_order_and_anyMatch_witness :
    ((soulEntries.foldl soul.Soul.AddMemory (soul.New "s1")).GetMemories [] = soulEntries) ∧
    ((soulEntries.foldl soul.Soul.AddMemory (soul.New "s1")).GetMemories ["green", "violet"] =
      [entryBlueGreen]) := by
  have main := getMemories_order_and_anyMatch "s1" soulEntries ["green", "violet"]
  refine ⟨main.1, ?_⟩
  rw [main.2 (by decide)]
  rfl

/-- C9: closing the bus clears the subscriber table, and publishing on a
closed bus is a no-op: the bus state is unchanged and every queue read
after the publish is empty, so nothing is delivered to anybody. -/
theorem close_clears_then_publish_noop (eb : transport.EventBus) (e : transport.Event)
    (t : transport.EventType) :
    ((eb.Close).subscribers = []) ∧
    ((eb.Close).Publish e = eb.Close) ∧
    (((eb.Close).Publish e).subQueues t = []) :=
  ⟨rfl, rfl, rfl⟩

/-- C10: addRule is total — it returns no error by construction — and
imposes no uniqueness: two rules sharing one id are both appended, in
order, and a step then evaluates both, recording both marker event lists;
addAgent, by contrast, rejects a duplicate id with an error. -/
theorem addRule_accepts_duplicate_ids (id : String) (r1 r2 : matrix.Rule σ) (env : σ)
    (es1 es2 : List matrix.Event) (m : matrix.Matrix σ) (a : matrix.Agent)
    (hid : r1.ID = r2.ID) (h1 : r1.Evaluate env = .ok es1) (h2 : r2.Evaluate env = .ok es2) :
    (((matrix.New σ id).AddRule r1).AddRule r2).rules = [r1, r2] ∧
    ((m.AddRule r1).AddRule r2).rules = m.rules ++ [r1, r2] ∧
    ((((matrix.New σ id).AddRule r1).AddRule r2).Step env).1.metricsTrace = es1 ++ es2 ∧
    ((((matrix.New σ id).AddRule r1).AddRule r2).Step env).2 = none ∧
    ((matrix.lookupAgent m.agents a.ID).isSome = true →
      m.AddAgent a = .error ("agent with ID " ++ a.ID ++ " already exists")) := by
  refine ⟨rfl, by simp [matrix.Matrix.AddRule], ?_, ?_, ?_⟩
  · simp [matrix.Matrix.Step, matrix.New, matrix.Matrix.AddRule, matrix.evalRules, h1, h2]
  · simp [matrix.Matrix.Step, matrix.New, matrix.Matrix.AddRule, matrix.evalRules, h1, h2]
  · intro hsome
    cases h : matrix.lookupAgent m.agents a.ID with
    | none => rw [h] at hsome; simp at hsome
    | some v => simp [matrix.Matrix.AddAgent, h]

/-- Witness for C10: the two rules sharing the id "dup" are both kept and
a step records the marker events of both. -/
theorem addRule_accepts_duplicate_ids_witness :
    (((matrix.New Unit "m-dup").AddRule ruleDup1).AddRule ruleDup2).rules =
      [ruleDup1, ruleDup2] ∧
    ((((matrix.New Unit "m-dup").AddRule ruleDup1).AddRule ruleDup2).Step ()).1.metricsTrace =
      [evDup1] ++ [evDup2] := by
  have main := addRule_accepts_duplicate_ids "m-dup" ruleDup1 ruleDup2 () [evDup1] [evDup2]
    (matrix.New Unit "aux") agentA rfl rfl rfl
  exact ⟨main.1, main.2.2.1⟩
